import Mathlib

/-!
Verification development for the Selective Repeat transport protocol in `sr.c`.

The C program is shallowly embedded: C `int` becomes `ℤ`, the C `%` operator
(truncated toward zero) becomes `cMod`, fixed-size C arrays become length-6
lists accessed through `cGet`/`cSet`, which return `none` on an out-of-bounds
index (undefined behaviour in C).  Handlers that can perform an out-of-bounds
access therefore return `Option`.  Statistics counters of the emulator
(`total_ACKs_received`, `new_ACKs`, `window_full`, `packets_resent`,
`packets_received`) are carried in the states.  The single retransmission
timer of sender A is modelled as a boolean `timerOn`, set by `starttimer`,
cleared by `stoptimer` and by the timer firing.
-/

namespace SR

/-- Constant `WINDOWSIZE` from sr.c line 27. -/
def WINDOWSIZE : ℤ := 6

/-- Constant `SEQSPACE` from sr.c line 28. -/
def SEQSPACE : ℤ := 13

/-- Constant `NOTINUSE` from sr.c line 29. -/
def NOTINUSE : ℤ := -1

/-- Constant `SENT` from sr.c line 30. -/
def SENT : ℤ := 1

/-- Constant `ACKED` from sr.c line 31. -/
def ACKED : ℤ := 2

/-- The C `%` operator on `int`, truncated toward zero (C99), for a positive
modulus `b`: the result has the sign of the dividend `a`. -/
def cMod (a b : ℤ) : ℤ :=
  if a < 0 then -((-a) % b) else a % b

/-- Read a C array at index `i`; `none` models an out-of-bounds access
(undefined behaviour in C). -/
def cGet {α : Type} (l : List α) (i : ℤ) : Option α :=
  if 0 ≤ i then l.get? i.toNat else none

/-- Write a C array at index `i`; `none` models an out-of-bounds access
(undefined behaviour in C). -/
def cSet {α : Type} (l : List α) (i : ℤ) (a : α) : Option (List α) :=
  if 0 ≤ i ∧ i.toNat < l.length then some (l.set i.toNat a) else none

/-- A packet payload: the 20 `char`s of `pkt.payload`, as integers. -/
abbrev Payload := List ℤ

/-- The `struct pkt` of the emulator: seqnum, acknum, checksum, payload. -/
structure Pkt where
  seqnum : ℤ
  acknum : ℤ
  checksum : ℤ
  payload : Payload
deriving DecidableEq, Repr

/-- The `struct msg` of the emulator: 20 data bytes. -/
structure Msg where
  data : Payload
deriving DecidableEq, Repr

/-- The zero-initialised packet (C static arrays of `struct pkt` start zeroed). -/
def pkt0 : Pkt :=
  { seqnum := 0, acknum := 0, checksum := 0, payload := List.replicate 20 0 }

/-- `ComputeChecksum` (sr.c lines 38-49): seqnum + acknum + sum of payload bytes. -/
def ComputeChecksum (p : Pkt) : ℤ :=
  p.seqnum + p.acknum + p.payload.sum

/-- `IsCorrupted` (sr.c lines 51-57): stored checksum differs from recomputed. -/
def IsCorrupted (p : Pkt) : Prop :=
  p.checksum ≠ ComputeChecksum p

instance (p : Pkt) : Decidable (IsCorrupted p) := by
  unfold IsCorrupted; infer_instance

/-! ### Sender (A) state and handlers -/

/-- Sender state: globals of sr.c lines 61-65, the static local `next_timeout`
of `A_timerinterrupt` (line 184), the timer flag, and statistics counters. -/
structure AState where
  buffer : List Pkt
  packet_status : List ℤ
  windowfirst : ℤ
  windowlast : ℤ
  windowcount : ℤ
  A_nextseqnum : ℤ
  next_timeout : ℤ
  timerOn : Bool
  window_full : ℤ
  total_ACKs_received : ℤ
  new_ACKs : ℤ
  packets_resent : ℤ
deriving DecidableEq, Repr

/-- `A_init` (sr.c lines 222-237) together with zero-initialised statics. -/
def A_init : AState :=
  { buffer := List.replicate 6 pkt0
    packet_status := List.replicate 6 NOTINUSE
    windowfirst := 0
    windowlast := -1
    windowcount := 0
    A_nextseqnum := 0
    next_timeout := 0
    timerOn := false
    window_full := 0
    total_ACKs_received := 0
    new_ACKs := 0
    packets_resent := 0 }

/-- `A_output` (sr.c lines 68-112).  Returns the new state and the packets
handed to `tolayer3`. -/
def A_output (s : AState) (m : Msg) : Option (AState × List Pkt) :=
  if s.windowcount < WINDOWSIZE then do
    let p0 : Pkt := { seqnum := s.A_nextseqnum, acknum := NOTINUSE,
                      checksum := 0, payload := m.data }
    let sendpkt : Pkt := { p0 with checksum := ComputeChecksum p0 }
    let window_index := cMod s.A_nextseqnum WINDOWSIZE
    let buf ← cSet s.buffer window_index sendpkt
    let st ← cSet s.packet_status window_index SENT
    let s1 := { s with buffer := buf, packet_status := st,
                       windowcount := s.windowcount + 1 }
    let s2 := if s1.windowcount = 1 then { s1 with timerOn := true } else s1
    some ({ s2 with A_nextseqnum := cMod (s2.A_nextseqnum + 1) SEQSPACE }, [sendpkt])
  else
    some ({ s with window_full := s.window_full + 1 }, [])

/-- The slide loop of `A_input` (sr.c lines 152-159): while `windowcount > 0`
and the slot at `windowfirst` is `ACKED`, free the slot, advance `windowfirst`,
decrement `windowcount`.  The fuel is the initial `windowcount` (each
iteration decrements it, so the loop runs at most that many times); the
boolean accumulates `can_slide`. -/
def slideLoop : ℕ → AState → Bool → Option (AState × Bool)
  | 0, s, cs => some (s, cs)
  | n + 1, s, cs =>
    if s.windowcount > 0 then do
      let st ← cGet s.packet_status s.windowfirst
      if st = ACKED then do
        let ps ← cSet s.packet_status s.windowfirst NOTINUSE
        slideLoop n
          { s with packet_status := ps
                   windowfirst := cMod (s.windowfirst + 1) WINDOWSIZE
                   windowcount := s.windowcount - 1 } true
      else some (s, cs)
    else some (s, cs)

/-- The window membership test of `A_input` (sr.c lines 137-138), on the
derived `base_seqnum` and `max_seqnum` (sr.c lines 134-135). -/
def aInWindow (s : AState) (a : ℤ) : Bool :=
  if cMod (s.A_nextseqnum - s.windowcount + SEQSPACE) SEQSPACE ≤
      cMod (cMod (s.A_nextseqnum - s.windowcount + SEQSPACE) SEQSPACE +
        s.windowcount - 1) SEQSPACE then
    decide (cMod (s.A_nextseqnum - s.windowcount + SEQSPACE) SEQSPACE ≤ a ∧
      a ≤ cMod (cMod (s.A_nextseqnum - s.windowcount + SEQSPACE) SEQSPACE +
        s.windowcount - 1) SEQSPACE)
  else
    decide (a ≥ cMod (s.A_nextseqnum - s.windowcount + SEQSPACE) SEQSPACE ∨
      a ≤ cMod (cMod (s.A_nextseqnum - s.windowcount + SEQSPACE) SEQSPACE +
        s.windowcount - 1) SEQSPACE)

/-- The body of `A_input` for an uncorrupted packet, after the
`total_ACKs_received` statistic was bumped (sr.c lines 130-173). -/
def A_inputBody (s : AState) (p : Pkt) : Option AState :=
  if aInWindow s p.acknum then do
    let st ← cGet s.packet_status (cMod p.acknum WINDOWSIZE)
    if st = SENT then do
      let ps ← cSet s.packet_status (cMod p.acknum WINDOWSIZE) ACKED
      let s1 := { s with packet_status := ps, new_ACKs := s.new_ACKs + 1 }
      let (s2, can_slide) ← slideLoop s1.windowcount.toNat s1 false
      if can_slide then
        if s2.windowcount > 0 then
          some { s2 with timerOn := true }
        else
          some { s2 with timerOn := false }
      else
        some s2
    else
      some s
  else
    some s

/-- `A_input` (sr.c lines 117-177). -/
def A_input (s : AState) (p : Pkt) : Option AState :=
  if p.checksum = ComputeChecksum p then
    A_inputBody { s with total_ACKs_received := s.total_ACKs_received + 1 } p
  else
    some s

/-- The scan of `A_timerinterrupt` (sr.c lines 192-214): starting at
`next_timeout`, find the first slot whose status is `SENT`, resend its
buffered packet, advance `next_timeout` past it and restart the timer; if no
slot qualifies fall through and just advance `next_timeout` (sr.c line 216).
Fuel 6 runs the `for` loop indices `i = 0..5`; the recursion carries `i`. -/
def resendScan (s : AState) : ℕ → ℤ → Option (AState × List Pkt)
  | 0, _ => some ({ s with next_timeout := cMod (s.next_timeout + 1) WINDOWSIZE }, [])
  | n + 1, i => do
    let st ← cGet s.packet_status (cMod (s.next_timeout + i) WINDOWSIZE)
    if st = SENT then do
      let pk ← cGet s.buffer (cMod (s.next_timeout + i) WINDOWSIZE)
      some ({ s with packets_resent := s.packets_resent + 1
                     next_timeout := cMod (cMod (s.next_timeout + i) WINDOWSIZE + 1) WINDOWSIZE
                     timerOn := true }, [pk])
    else
      resendScan s n (i + 1)

/-- `A_timerinterrupt` (sr.c lines 180-218). -/
def A_timerinterrupt (s : AState) : Option (AState × List Pkt) :=
  if s.windowcount > 0 then resendScan s 6 0 else some (s, [])

/-- The sender window base as derived in `A_input` (sr.c line 134):
`(A_nextseqnum - windowcount + SEQSPACE) % SEQSPACE`. -/
def base_seqnum (s : AState) : ℤ :=
  cMod (s.A_nextseqnum - s.windowcount + SEQSPACE) SEQSPACE

/-- The status of sender slot `i`. -/
def statusAt (s : AState) (i : ℕ) : ℤ :=
  s.packet_status.getD i 0

/-! ### Receiver (B) state and handlers -/

/-- Receiver state: globals of sr.c lines 241-244 plus the emulator statistic
`packets_received`. -/
structure BState where
  expectedseqnum : ℤ
  B_nextseqnum : ℤ
  rcv_buffer : List Pkt
  packet_received : List ℤ
  packets_received : ℤ
deriving DecidableEq, Repr

/-- `B_init` (sr.c lines 378-382); the static arrays start zero-initialised. -/
def B_init : BState :=
  { expectedseqnum := 0
    B_nextseqnum := 1
    rcv_buffer := List.replicate 6 pkt0
    packet_received := List.replicate 6 0
    packets_received := 0 }

/-- Construction of the outgoing ACK packet (sr.c lines 358-370): seqnum is
the toggling `B_nextseqnum`, payload is twenty ASCII `0` characters (48),
checksum over the final fields. -/
def mkAck (s : BState) (ackn : ℤ) : BState × Pkt :=
  let p0 : Pkt := { seqnum := s.B_nextseqnum, acknum := ackn,
                    checksum := 0, payload := List.replicate 20 48 }
  let pk : Pkt := { p0 with checksum := ComputeChecksum p0 }
  ({ s with B_nextseqnum := cMod (s.B_nextseqnum + 1) 2 }, pk)

/-- The drain loop of `B_input` (sr.c lines 300-313): starting at `i = 1`,
while `packet_received[i] == 1`, deliver `rcv_buffer[i].payload`, advance
`expectedseqnum`, clear the flag, increment `i`.  Reading index 6 is an
out-of-bounds access, surfaced by `cGet` as `none`.  Returns the final state,
the delivered payloads in order, and the final value of `i`.  Fuel 6 is
enough: the loop body can run at most five times (i = 1..5) before the read
at i = 6 returns `none`. -/
def drainLoop : ℕ → BState → ℤ → Option (BState × List Payload × ℤ)
  | 0, s, i => some (s, [], i)
  | n + 1, s, i => do
    let flag ← cGet s.packet_received i
    if flag = 1 then do
      let pk ← cGet s.rcv_buffer i
      let pr ← cSet s.packet_received i 0
      let s1 := { s with expectedseqnum := cMod (s.expectedseqnum + 1) SEQSPACE
                         packet_received := pr
                         packets_received := s.packets_received + 1 }
      let (s2, dels, iEnd) ← drainLoop n s1 (i + 1)
      some (s2, pk.payload :: dels, iEnd)
    else
      some (s, [], i)

/-- The copy half of the buffer shift (sr.c lines 317-321): for
`j = 0 .. WINDOWSIZE - i - 1`, copy `packet_received[j+i]` down to index `j`
and, when the copied flag is set, copy the buffered packet too. -/
def shiftCopy : ℕ → ℤ → ℤ → BState → Option BState
  | 0, _, _, s => some s
  | n + 1, j, i, s =>
    if j < WINDOWSIZE - i then do
      let v ← cGet s.packet_received (j + i)
      let pr ← cSet s.packet_received j v
      let s1 := { s with packet_received := pr }
      let s2 ← if v ≠ 0 then do
          let b ← cGet s1.rcv_buffer (j + i)
          let rb ← cSet s1.rcv_buffer j b
          some { s1 with rcv_buffer := rb }
        else
          some s1
      shiftCopy n (j + 1) i s2
    else
      some s

/-- The clear half of the buffer shift (sr.c lines 324-326): for
`j = WINDOWSIZE - i .. WINDOWSIZE - 1`, zero `packet_received[j]`. -/
def shiftClear : ℕ → ℤ → BState → Option BState
  | 0, _, s => some s
  | n + 1, j, s =>
    if j < WINDOWSIZE then do
      let pr ← cSet s.packet_received j 0
      shiftClear n (j + 1) { s with packet_received := pr }
    else
      some s

/-- `B_input` (sr.c lines 248-374).  Returns the new state, the payloads
delivered to `tolayer5` in order, and the ACK handed to `tolayer3` (if any);
`none` models an out-of-bounds array access (undefined behaviour). -/
def B_input (s : BState) (p : Pkt) : Option (BState × List Payload × Option Pkt) :=
  let RCV_BASE := s.expectedseqnum
  let RCV_MAX := cMod (s.expectedseqnum + WINDOWSIZE - 1) SEQSPACE
  if p.checksum = ComputeChecksum p then
    let in_window : Bool :=
      if RCV_BASE ≤ RCV_MAX then
        decide (RCV_BASE ≤ p.seqnum ∧ p.seqnum ≤ RCV_MAX)
      else
        decide (p.seqnum ≥ RCV_BASE ∨ p.seqnum ≤ RCV_MAX)
    if in_window then do
      let flag ← cGet s.packet_received (cMod (p.seqnum - RCV_BASE + WINDOWSIZE) WINDOWSIZE)
      if flag = 0 then do
        let rb ← cSet s.rcv_buffer (cMod (p.seqnum - RCV_BASE + WINDOWSIZE) WINDOWSIZE) p
        let pr ← cSet s.packet_received
          (cMod (p.seqnum - RCV_BASE + WINDOWSIZE) WINDOWSIZE) 1
        let s1 := { s with rcv_buffer := rb, packet_received := pr }
        if p.seqnum = RCV_BASE then do
          let s2 := { s1 with expectedseqnum := cMod (s1.expectedseqnum + 1) SEQSPACE
                              packets_received := s1.packets_received + 1 }
          let pr0 ← cSet s2.packet_received (0 : ℤ) (0 : ℤ)
          let s3 := { s2 with packet_received := pr0 }
          let (s4, dels, iEnd) ← drainLoop 6 s3 1
          let s5 ← if iEnd > 0 then do
              let sA ← shiftCopy 6 0 iEnd s4
              shiftClear 6 (WINDOWSIZE - iEnd) sA
            else
              some s4
          let (s6, ack) := mkAck s5 p.seqnum
          some (s6, p.payload :: dels, some ack)
        else
          let (s2, ack) := mkAck s1 p.seqnum
          some (s2, [], some ack)
      else
        let (s2, ack) := mkAck s p.seqnum
        some (s2, [], some ack)
    else
      if cMod (RCV_BASE - p.seqnum + SEQSPACE) SEQSPACE ≤ WINDOWSIZE then
        let (s2, ack) := mkAck s p.seqnum
        some (s2, [], some ack)
      else
        some (s, [], none)
  else
    some (s, [], none)

/-! ### Events and reachability -/

/-- Events driving the sender: an application message (`A_output`), an
arriving packet (`A_input`), the timer firing (`A_timerinterrupt`, only
available while the timer is armed; firing disarms it before the handler
runs). -/
inductive AEvent where
  | send (m : Msg)
  | ack (p : Pkt)
  | tick
deriving Repr

/-- One sender step; `none` when the event is unavailable or the handler
performs an out-of-bounds access. -/
def AStepE (s : AState) : AEvent → Option (AState × List Pkt)
  | .send m => A_output s m
  | .ack p => (A_input s p).map (fun s1 => (s1, []))
  | .tick =>
    if s.timerOn then A_timerinterrupt { s with timerOn := false } else none

/-- Sender states reachable from `A_init` by any sequence of events. -/
inductive ReachableA : AState → Prop
  | init : ReachableA A_init
  | step {s s1 : AState} {e : AEvent} {out : List Pkt} :
      ReachableA s → AStepE s e = some (s1, out) → ReachableA s1

/-! ### A concrete whole-system runner for counterexample traces.

The channel is modelled by scripts: `aToB i` delivers the `i`-th packet A ever
handed to the channel (so drops are packets never delivered, duplicates are
repeated indices, and delays are out-of-order indices), `bToA i` likewise for
B's ACKs.  This matches the emulator, which may lose or corrupt but otherwise
delivers what was handed to it. -/

structure SysSt where
  sa : AState
  sb : BState
  aOut : List Pkt
  bOut : List Pkt
  delivered : List Payload
deriving DecidableEq, Repr

/-- The initial system state after `A_init` and `B_init`. -/
def sys0 : SysSt :=
  { sa := A_init, sb := B_init, aOut := [], bOut := [], delivered := [] }

/-- System events for concrete traces. -/
inductive SEv where
  | toA (m : Msg)
  | aToB (i : ℕ)
  | bToA (i : ℕ)
  | tickA
deriving Repr

/-- One system step. -/
def sysStep (st : SysSt) : SEv → Option SysSt
  | .toA m =>
    (A_output st.sa m).map fun r =>
      { st with sa := r.1, aOut := st.aOut ++ r.2 }
  | .tickA =>
    if st.sa.timerOn then
      (A_timerinterrupt { st.sa with timerOn := false }).map fun r =>
        { st with sa := r.1, aOut := st.aOut ++ r.2 }
    else
      none
  | .aToB i =>
    (B_input st.sb (st.aOut.getD i pkt0)).map fun r =>
      { st with sb := r.1, delivered := st.delivered ++ r.2.1,
                bOut := st.bOut ++ r.2.2.toList }
  | .bToA i =>
    (A_input st.sa (st.bOut.getD i pkt0)).map fun s1 =>
      { st with sa := s1 }

/-- Run a script of system events. -/
def sysRun (st : SysSt) : List SEv → Option SysSt
  | [] => some st
  | e :: es => do
    let st1 ← sysStep st e
    sysRun st1 es

/-- Run the receiver alone over a list of arriving packets, collecting the
payloads delivered to the application. -/
def bRun (s : BState) : List Pkt → Option (BState × List Payload)
  | [] => some (s, [])
  | p :: ps => do
    let r ← B_input s p
    let r2 ← bRun r.1 ps
    some (r2.1, r.2.1 ++ r2.2)

/-! ### Concrete traces used as counterexamples -/

/-- The application message number `k`: twenty bytes, all `k`. -/
def msgK (k : ℕ) : Msg := ⟨List.replicate 20 (k : ℤ)⟩

/-- One lossless round trip: the application hands message `k` to A, A's
`k`-th packet reaches B, B's `k`-th ACK reaches A. -/
def roundEvents (k : ℕ) : List SEv := [SEv.toA (msgK k), SEv.aToB k, SEv.bToA k]

/-- A well-formed data packet with sequence number `k mod 13` and payload
byte `pay`, exactly as `A_output` would build it. -/
def dataPkt (k : ℕ) (pay : ℤ) : Pkt :=
  let p0 : Pkt := { seqnum := (k : ℤ) % 13, acknum := NOTINUSE, checksum := 0,
                    payload := List.replicate 20 pay }
  { p0 with checksum := ComputeChecksum p0 }

/-- A well-formed ACK packet carrying acknowledgment number `k`, shaped as B
builds its ACKs. -/
def ackPkt (k : ℤ) : Pkt :=
  let p0 : Pkt := { seqnum := 0, acknum := k, checksum := 0,
                    payload := List.replicate 20 48 }
  { p0 with checksum := ComputeChecksum p0 }

/-- A concrete corrupted packet: its stored checksum does not match the
recomputed one. -/
def badPkt : Pkt :=
  { seqnum := 0, acknum := 0, checksum := 999, payload := List.replicate 20 0 }

/-- Trace for claim C1: eight lossless rounds (messages 0..7 delivered and
acknowledged), then A accepts messages 8..13 back to back, filling its window
with sequence numbers 8, 9, 10, 11, 12, 0. -/
def c1preScript : List SEv :=
  (List.flatten ((List.range 8).map roundEvents)) ++
  [SEv.toA (msgK 8), SEv.toA (msgK 9), SEv.toA (msgK 10),
   SEv.toA (msgK 11), SEv.toA (msgK 12), SEv.toA (msgK 13)]

/-- The system state reached by `c1preScript`. -/
def c1pre : SysSt := (sysRun sys0 c1preScript).getD sys0

/-- Trace for claim C2: thirteen lossless rounds (a full wrap of the sequence
space, after which `windowfirst = 13 mod 6 = 1` while the base slot is
`0 mod 6 = 0`), then messages 13 and 14 (sequence numbers 0 and 1) are sent
and both reach B; B's ACK for sequence number 0 is lost. -/
def c2preScript : List SEv :=
  (List.flatten ((List.range 13).map roundEvents)) ++
  [SEv.toA (msgK 13), SEv.toA (msgK 14), SEv.aToB 13, SEv.aToB 14]

/-- The system state reached by `c2preScript`. -/
def c2pre : SysSt := (sysRun sys0 c2preScript).getD sys0

/-- The system state after B's ACK for sequence number 1 (its 15th ACK,
index 14) reaches A in state `c2pre`. -/
def c2post : SysSt := (sysStep c2pre (SEv.bToA 14)).getD sys0

/-- Receiver state for claim C4 after packets 0..7 arrived in order:
`expectedseqnum = 8`, so the window [8..0] wraps the sequence space. -/
def c4sB : BState :=
  ((bRun B_init ((List.range 8).map (fun k => dataPkt k 5))).getD (B_init, [])).1

/-- Receiver state for claim C4 after packets 1..5 arrived (buffered out of
order): every slot except slot 0 is filled. -/
def c4sB2 : BState :=
  ((bRun B_init ((List.range 5).map (fun k => dataPkt (k + 1) 7))).getD (B_init, [])).1

/-- Trace for claim C5: two messages are sent (sequence numbers 0 and 1, both
unacknowledged), then the timer fires twice. -/
def c5Script : List SEv := [SEv.toA (msgK 0), SEv.toA (msgK 1), SEv.tickA, SEv.tickA]

/-- The system state reached by `c5Script`. -/
def c5post : SysSt := (sysRun sys0 c5Script).getD sys0

/-- Trace for claim C10: twelve lossless rounds, then messages 12 and 13
(sequence numbers 12 and 0, which collide in slot 0 = 12 mod 6 = 0 mod 6, so
the second send overwrites the first); B receives the sequence-number-0
packet and its ACK reaches A; then the timer fires. -/
def c10Script : List SEv :=
  (List.flatten ((List.range 12).map roundEvents)) ++
  [SEv.toA (msgK 12), SEv.toA (msgK 13), SEv.aToB 13, SEv.bToA 12, SEv.tickA]

/-- The system state reached by `c10Script`. -/
def c10post : SysSt := (sysRun sys0 c10Script).getD sys0

/-- Circular distance from `base` to `x` in the sequence space
(spec section 3): `dist(base, x) = (x - base + S) mod S`. -/
def distSR (b x : ℤ) : ℤ := cMod (x - b + SEQSPACE) SEQSPACE

/-- Number of occupied (non-`NOTINUSE`) sender slots. -/
def occCount (s : AState) : ℕ :=
  s.packet_status.countP (fun v => decide (v ≠ NOTINUSE))

/-- The packet `A_output` builds for message `m` in state `s`
(sr.c lines 81-85), written out explicitly. -/
def sendPkt (s : AState) (m : Msg) : Pkt :=
  { seqnum := s.A_nextseqnum, acknum := NOTINUSE,
    checksum := s.A_nextseqnum + NOTINUSE + m.data.sum, payload := m.data }

/-- The sender state after a successful (window-not-full) `A_output`,
written out explicitly. -/
def A_outputPost (s : AState) (m : Msg) : AState :=
  { s with
    buffer := s.buffer.set (cMod s.A_nextseqnum WINDOWSIZE).toNat (sendPkt s m)
    packet_status := s.packet_status.set (cMod s.A_nextseqnum WINDOWSIZE).toNat SENT
    windowcount := s.windowcount + 1
    timerOn := if s.windowcount + 1 = 1 then true else s.timerOn
    A_nextseqnum := cMod (s.A_nextseqnum + 1) SEQSPACE }

/-- Invariant of the sender state, preserved by every event from `A_init`. -/
structure AInv (s : AState) : Prop where
  bufLen : s.buffer.length = 6
  stLen : s.packet_status.length = 6
  cntNonneg : 0 ≤ s.windowcount
  cntLe : s.windowcount ≤ 6
  nsLo : 0 ≤ s.A_nextseqnum
  nsHi : s.A_nextseqnum < 13
  wfLo : 0 ≤ s.windowfirst
  wfHi : s.windowfirst < 6
  ntLo : 0 ≤ s.next_timeout
  ntHi : s.next_timeout < 6
  stVals : ∀ i : ℕ, i < 6 →
    statusAt s i = NOTINUSE ∨ statusAt s i = SENT ∨ statusAt s i = ACKED
  congru : ∀ i : ℕ, i < 6 → statusAt s i ≠ NOTINUSE →
    cMod (s.buffer.getD i pkt0).seqnum 6 = (i : ℤ)
  bufSeq : ∀ i : ℕ, i < 6 →
    0 ≤ (s.buffer.getD i pkt0).seqnum ∧ (s.buffer.getD i pkt0).seqnum < 13
  occLe : (occCount s : ℤ) ≤ s.windowcount

/-! ### Theorems -/

/-- A `cMod` by a positive modulus on a nonnegative argument is the
mathematical remainder. -/
theorem cMod_eq_emod {a : ℤ} (b : ℤ) (h : 0 ≤ a) : cMod a b = a % b := by
  unfold cMod
  rw [if_neg (by omega)]

/-- Bounds for `cMod` on a nonnegative argument. -/
theorem cMod_bounds {a b : ℤ} (h : 0 ≤ a) (hb : 0 < b) :
    0 ≤ cMod a b ∧ cMod a b < b := by
  rw [cMod_eq_emod b h]
  exact ⟨Int.emod_nonneg a (by omega), Int.emod_lt_of_pos a hb⟩

/-- A successful `cGet` means the index was in bounds and yields the `getD`
value. -/
theorem cGet_some {α : Type} {l : List α} {i : ℤ} {v : α} (d : α)
    (h : cGet l i = some v) :
    0 ≤ i ∧ i.toNat < l.length ∧ l.getD i.toNat d = v := by
  unfold cGet at h
  by_cases h0 : 0 ≤ i
  · rw [if_pos h0] at h
    have hlt : i.toNat < l.length := by
      by_contra hge
      rw [List.get?_eq_none.mpr (by omega)] at h
      exact Option.noConfusion h
    exact ⟨h0, hlt, by rw [List.getD_eq_get?, h]; rfl⟩
  · rw [if_neg h0] at h
    exact Option.noConfusion h

/-- `cGet` at an in-bounds index succeeds with the `getD` value. -/
theorem cGet_eq_some {α : Type} (l : List α) (i : ℤ) (d : α)
    (h0 : 0 ≤ i) (h1 : i.toNat < l.length) :
    cGet l i = some (l.getD i.toNat d) := by
  unfold cGet
  rw [if_pos h0, List.getD_eq_get?]
  cases hg : l.get? i.toNat with
  | none => exact absurd (List.get?_eq_none.mp hg) (by omega)
  | some v => rfl

/-- `cSet` at an in-bounds index succeeds. -/
theorem cSet_eq_some {α : Type} (l : List α) (i : ℤ) (a : α)
    (h0 : 0 ≤ i) (h1 : i.toNat < l.length) :
    cSet l i a = some (l.set i.toNat a) := by
  unfold cSet
  rw [if_pos ⟨h0, h1⟩]

/-- Reading the written position of `List.set`. -/
theorem getD_set_self {α : Type} :
    ∀ (l : List α) (i : ℕ) (a d : α), i < l.length → (l.set i a).getD i d = a
  | [], i, a, d, h => absurd h (by simp)
  | x :: xs, 0, a, d, _ => rfl
  | x :: xs, i + 1, a, d, h =>
    getD_set_self xs i a d (by simpa using h)

/-- Reading another position of `List.set`. -/
theorem getD_set_ne {α : Type} :
    ∀ (l : List α) (i j : ℕ) (a d : α), i ≠ j → (l.set i a).getD j d = l.getD j d
  | [], i, j, a, d, _ => rfl
  | x :: xs, 0, 0, a, d, h => absurd rfl h
  | x :: xs, 0, j + 1, a, d, _ => rfl
  | x :: xs, i + 1, 0, a, d, _ => rfl
  | x :: xs, i + 1, j + 1, a, d, h =>
    getD_set_ne xs i j a d (fun he => h (by omega))

/-- Effect of `List.set` on `countP`: the count loses the old entry's
contribution and gains the new one's. -/
theorem countP_set_balance {α : Type} (p : α → Bool) (d : α) :
    ∀ (l : List α) (i : ℕ) (a : α), i < l.length →
      (l.set i a).countP p + (if p (l.getD i d) then 1 else 0) =
        l.countP p + (if p a then 1 else 0)
  | [], i, a, h => absurd h (by simp)
  | x :: xs, 0, a, _ => by
    simp only [List.set, List.getD_cons_zero, List.countP_cons]
    omega
  | x :: xs, i + 1, a, h => by
    simp only [List.set, List.getD_cons_succ, List.countP_cons]
    have := countP_set_balance p d xs i a (by simpa using h)
    omega

/-- Characterization of the successful branch of `A_output`. -/
theorem A_output_spec (s : AState) (m : Msg) (hlt : s.windowcount < 6)
    (hb : s.buffer.length = 6) (hs : s.packet_status.length = 6)
    (hns : 0 ≤ s.A_nextseqnum) :
    A_output s m = some (A_outputPost s m, [sendPkt s m]) := by
  have hw := cMod_bounds (b := 6) hns (by norm_num)
  have hwilt : (cMod s.A_nextseqnum 6).toNat < 6 := by omega
  unfold A_output
  rw [if_pos (show s.windowcount < WINDOWSIZE from hlt)]
  show (cSet s.buffer (cMod s.A_nextseqnum WINDOWSIZE) _).bind _ = _
  rw [show (WINDOWSIZE : ℤ) = 6 from rfl]
  rw [cSet_eq_some _ _ _ hw.1 (by rw [hb]; exact hwilt)]
  show (cSet s.packet_status (cMod s.A_nextseqnum 6) SENT).bind _ = _
  rw [cSet_eq_some _ _ _ hw.1 (by rw [hs]; exact hwilt)]
  show some _ = _
  by_cases h1 : s.windowcount + 1 = 1
  · simp only [A_outputPost, sendPkt, if_pos h1]
    rfl
  · simp only [A_outputPost, sendPkt, if_neg h1]
    rfl

/-- `A_output` preserves the sender invariant. -/
theorem AInv_output {s s' : AState} {m : Msg} {out : List Pkt} (hI : AInv s)
    (h : A_output s m = some (s', out)) : AInv s' := by
  by_cases hlt : s.windowcount < 6
  · rw [A_output_spec s m hlt hI.bufLen hI.stLen hI.nsLo] at h
    have hs' : s' = A_outputPost s m := by
      injection h with h1
      injection h1 with h2 h3
      exact h2.symm
    subst hs'
    have hw := cMod_bounds (b := 6) hI.nsLo (by norm_num)
    have hwilt : (cMod s.A_nextseqnum 6).toNat < 6 := by omega
    have hwiCast : ((cMod s.A_nextseqnum 6).toNat : ℤ) = cMod s.A_nextseqnum 6 :=
      Int.toNat_of_nonneg hw.1
    have hns1 : 0 ≤ s.A_nextseqnum + 1 := by have := hI.nsLo; omega
    have hns' := cMod_bounds (b := 13) hns1 (by norm_num)
    have hbufEq : (A_outputPost s m).buffer =
        s.buffer.set (cMod s.A_nextseqnum 6).toNat (sendPkt s m) := rfl
    have hstEq : (A_outputPost s m).packet_status =
        s.packet_status.set (cMod s.A_nextseqnum 6).toNat SENT := rfl
    have hcntEq : (A_outputPost s m).windowcount = s.windowcount + 1 := rfl
    have hnsEq : (A_outputPost s m).A_nextseqnum = cMod (s.A_nextseqnum + 1) 13 := rfl
    have hwfEq : (A_outputPost s m).windowfirst = s.windowfirst := rfl
    have hntEq : (A_outputPost s m).next_timeout = s.next_timeout := rfl
    have hstAt : ∀ i : ℕ, statusAt (A_outputPost s m) i =
        (s.packet_status.set (cMod s.A_nextseqnum 6).toNat SENT).getD i 0 := by
      intro i; rw [statusAt, hstEq]
    refine ⟨?_, ?_, ?_, ?_, ?_, ?_, ?_, ?_, ?_, ?_, ?_, ?_, ?_, ?_⟩
    · rw [hbufEq, List.length_set]; exact hI.bufLen
    · rw [hstEq, List.length_set]; exact hI.stLen
    · rw [hcntEq]; have := hI.cntNonneg; omega
    · rw [hcntEq]; omega
    · rw [hnsEq]; exact hns'.1
    · rw [hnsEq]; exact hns'.2
    · rw [hwfEq]; exact hI.wfLo
    · rw [hwfEq]; exact hI.wfHi
    · rw [hntEq]; exact hI.ntLo
    · rw [hntEq]; exact hI.ntHi
    · intro i hi
      rw [hstAt]
      by_cases hie : (cMod s.A_nextseqnum 6).toNat = i
      · subst hie
        right; left
        exact getD_set_self _ _ _ _ (by rw [hI.stLen]; exact hwilt)
      · rw [getD_set_ne _ _ _ _ _ hie]
        exact hI.stVals i hi
    · intro i hi hne
      rw [hstAt] at hne
      rw [hbufEq]
      by_cases hie : (cMod s.A_nextseqnum 6).toNat = i
      · subst hie
        rw [getD_set_self _ _ _ _ (by rw [hI.bufLen]; exact hwilt)]
        show cMod s.A_nextseqnum 6 = _
        rw [hwiCast]
      · rw [getD_set_ne _ _ _ _ _ hie]
        rw [getD_set_ne _ _ _ _ _ hie] at hne
        exact hI.congru i hi hne
    · intro i hi
      rw [hbufEq]
      by_cases hie : (cMod s.A_nextseqnum 6).toNat = i
      · subst hie
        rw [getD_set_self _ _ _ _ (by rw [hI.bufLen]; exact hwilt)]
        exact ⟨hI.nsLo, hI.nsHi⟩
      · rw [getD_set_ne _ _ _ _ _ hie]
        exact hI.bufSeq i hi
    · have hbal := countP_set_balance (fun v => decide (v ≠ NOTINUSE)) (0 : ℤ)
        s.packet_status (cMod s.A_nextseqnum 6).toNat SENT
        (by rw [hI.stLen]; exact hwilt)
      have hocc := hI.occLe
      have hcnt := hI.cntNonneg
      have hoccEq : occCount (A_outputPost s m) =
          (s.packet_status.set (cMod s.A_nextseqnum 6).toNat SENT).countP
            (fun v => decide (v ≠ NOTINUSE)) := by
        rw [occCount, hstEq]
      rw [hoccEq, hcntEq]
      have hSENT : (if (fun v => decide (v ≠ NOTINUSE)) SENT = true then 1 else 0) = 1 := by
        decide
      rw [hSENT] at hbal
      rw [occCount] at hocc
      split at hbal <;> omega
  · unfold A_output at h
    rw [show (WINDOWSIZE : ℤ) = 6 from rfl, if_neg hlt] at h
    have hs' : s' = { s with window_full := s.window_full + 1 } := by
      injection h with h1
      injection h1 with h2 h3
      exact h2.symm
    subst hs'
    exact ⟨hI.bufLen, hI.stLen, hI.cntNonneg, hI.cntLe, hI.nsLo, hI.nsHi,
      hI.wfLo, hI.wfHi, hI.ntLo, hI.ntHi, hI.stVals, hI.congru, hI.bufSeq, hI.occLe⟩

/-- The slide loop of `A_input` preserves the sender invariant. -/
theorem slideLoop_inv :
    ∀ (n : ℕ) (s : AState) (cs : Bool) {s' : AState} {cs' : Bool},
      AInv s → slideLoop n s cs = some (s', cs') → AInv s'
  | 0, s, cs, s', cs', hI, h => by
    unfold slideLoop at h
    injection h with h1
    injection h1 with h2 h3
    subst h2
    exact hI
  | n + 1, s, cs, s', cs', hI, h => by
    unfold slideLoop at h
    by_cases hc : s.windowcount > 0
    · rw [if_pos hc] at h
      cases hg : cGet s.packet_status s.windowfirst with
      | none =>
        rw [hg] at h
        exact Option.noConfusion h
      | some st =>
        rw [hg] at h
        simp only [Option.bind_eq_bind, Option.some_bind] at h
        by_cases hst : st = ACKED
        · rw [if_pos hst] at h
          have hwf0 := hI.wfLo
          have hwfN : s.windowfirst.toNat < 6 := by have := hI.wfHi; omega
          rw [cSet_eq_some _ _ _ hwf0 (by rw [hI.stLen]; exact hwfN)] at h
          simp only [Option.bind_eq_bind, Option.some_bind] at h
          set sN : AState :=
            { s with
              packet_status := s.packet_status.set s.windowfirst.toNat NOTINUSE
              windowfirst := cMod (s.windowfirst + 1) WINDOWSIZE
              windowcount := s.windowcount - 1 } with hsN
          have hgv := cGet_some (0 : ℤ) hg
          have hold : s.packet_status.getD s.windowfirst.toNat 0 = ACKED := by
            rw [hgv.2.2]; exact hst
          have hIN : AInv sN := by

            have hwf1 : (0 : ℤ) ≤ s.windowfirst + 1 := by omega
            have hwfB := cMod_bounds (b := 6) hwf1 (by norm_num)
            refine ⟨?_, ?_, ?_, ?_, ?_, ?_, ?_, ?_, ?_, ?_, ?_, ?_, ?_, ?_⟩
            · show s.buffer.length = 6; exact hI.bufLen
            · show (s.packet_status.set _ _).length = 6
              rw [List.length_set]; exact hI.stLen
            · show (0 : ℤ) ≤ s.windowcount - 1; omega
            · show s.windowcount - 1 ≤ 6; have := hI.cntLe; omega
            · exact hI.nsLo
            · exact hI.nsHi
            · show (0 : ℤ) ≤ cMod (s.windowfirst + 1) WINDOWSIZE; exact hwfB.1
            · show cMod (s.windowfirst + 1) WINDOWSIZE < 6; exact hwfB.2
            · exact hI.ntLo
            · exact hI.ntHi
            · intro i hi
              have hAll : statusAt sN i =
                  (s.packet_status.set s.windowfirst.toNat NOTINUSE).getD i 0 := rfl
              rw [hAll]
              by_cases hie : s.windowfirst.toNat = i
              · subst hie
                left
                exact getD_set_self _ _ _ _ (by rw [hI.stLen]; exact hwfN)
              · rw [getD_set_ne _ _ _ _ _ hie]
                exact hI.stVals i hi
            · intro i hi hne
              show cMod (s.buffer.getD i pkt0).seqnum 6 = (i : ℤ)
              replace hne : (s.packet_status.set s.windowfirst.toNat NOTINUSE).getD i 0 ≠
                  NOTINUSE := hne
              by_cases hie : s.windowfirst.toNat = i
              · subst hie
                rw [getD_set_self _ _ _ _ (by rw [hI.stLen]; exact hwfN)] at hne
                exact absurd rfl hne
              · rw [getD_set_ne _ _ _ _ _ hie] at hne
                exact hI.congru i hi hne
            · intro i hi
              exact hI.bufSeq i hi
            · have hbal := countP_set_balance (fun v => decide (v ≠ NOTINUSE)) (0 : ℤ)
                s.packet_status s.windowfirst.toNat NOTINUSE
                (by rw [hI.stLen]; exact hwfN)
              rw [hold] at hbal
              have hocc := hI.occLe
              rw [occCount] at hocc
              show ((s.packet_status.set s.windowfirst.toNat NOTINUSE).countP
                  (fun v => decide (v ≠ NOTINUSE)) : ℤ) ≤ s.windowcount - 1
              have hA : (if (fun v => decide (v ≠ NOTINUSE)) ACKED = true then 1 else 0) = 1 := by
                decide
              have hN : (if (fun v => decide (v ≠ NOTINUSE)) NOTINUSE = true then 1 else 0) = 0 := by
                decide
              rw [hA, hN] at hbal
              omega
          exact slideLoop_inv n sN true hIN h
        · rw [if_neg hst] at h
          injection h with h1
          injection h1 with h2 h3
          subst h2
          exact hI
    · rw [if_neg hc] at h
      injection h with h1
      injection h1 with h2 h3
      subst h2
      exact hI

/-- The body of `A_input` preserves the sender invariant. -/
theorem AInv_inputBody {s s' : AState} {p : Pkt} (hI : AInv s)
    (h : A_inputBody s p = some s') : AInv s' := by
  unfold A_inputBody at h
  by_cases hin : aInWindow s p.acknum = true
  · rw [if_pos hin] at h
    cases hg : cGet s.packet_status (cMod p.acknum WINDOWSIZE) with
    | none =>
      rw [hg] at h
      exact Option.noConfusion h
    | some st =>
      rw [hg] at h
      simp only [Option.bind_eq_bind, Option.some_bind] at h
      by_cases hst : st = SENT
      · rw [if_pos hst] at h
        have hgv := cGet_some (0 : ℤ) hg
        rw [cSet_eq_some _ _ _ hgv.1 hgv.2.1] at h
        simp only [Option.bind_eq_bind, Option.some_bind] at h
        set s2 : AState :=
          { s with
            packet_status :=
              s.packet_status.set (cMod p.acknum WINDOWSIZE).toNat ACKED
            new_ACKs := s.new_ACKs + 1 } with hs2
        have hwiN : (cMod p.acknum WINDOWSIZE).toNat < 6 := by
          have h1 := hgv.2.1
          have h2 := hI.stLen
          omega
        have hold : s.packet_status.getD (cMod p.acknum WINDOWSIZE).toNat 0 = SENT := by
          rw [hgv.2.2]; exact hst
        have hI2 : AInv s2 := by
          refine ⟨?_, ?_, ?_, ?_, ?_, ?_, ?_, ?_, ?_, ?_, ?_, ?_, ?_, ?_⟩
          · exact hI.bufLen
          · show (s.packet_status.set _ _).length = 6
            rw [List.length_set]; exact hI.stLen
          · exact hI.cntNonneg
          · exact hI.cntLe
          · exact hI.nsLo
          · exact hI.nsHi
          · exact hI.wfLo
          · exact hI.wfHi
          · exact hI.ntLo
          · exact hI.ntHi
          · intro i hi
            have hAll : statusAt s2 i =
                (s.packet_status.set (cMod p.acknum WINDOWSIZE).toNat ACKED).getD i 0 := rfl
            rw [hAll]
            by_cases hie : (cMod p.acknum WINDOWSIZE).toNat = i
            · subst hie
              right; right
              exact getD_set_self _ _ _ _ (by rw [hI.stLen]; exact hwiN)
            · rw [getD_set_ne _ _ _ _ _ hie]
              exact hI.stVals i hi
          · intro i hi hne
            show cMod (s.buffer.getD i pkt0).seqnum 6 = (i : ℤ)
            replace hne : (s.packet_status.set (cMod p.acknum WINDOWSIZE).toNat
                ACKED).getD i 0 ≠ NOTINUSE := hne
            by_cases hie : (cMod p.acknum WINDOWSIZE).toNat = i
            · subst hie
              refine hI.congru _ hwiN ?_
              show s.packet_status.getD (cMod p.acknum WINDOWSIZE).toNat 0 ≠ NOTINUSE
              rw [hold]
              decide
            · rw [getD_set_ne _ _ _ _ _ hie] at hne
              exact hI.congru i hi hne
          · intro i hi
            exact hI.bufSeq i hi
          · have hbal := countP_set_balance (fun v => decide (v ≠ NOTINUSE)) (0 : ℤ)
              s.packet_status (cMod p.acknum WINDOWSIZE).toNat ACKED
              (by rw [hI.stLen]; exact hwiN)
            rw [hold] at hbal
            have hocc := hI.occLe
            rw [occCount] at hocc
            show ((s.packet_status.set (cMod p.acknum WINDOWSIZE).toNat ACKED).countP
                (fun v => decide (v ≠ NOTINUSE)) : ℤ) ≤ s.windowcount
            have hA : (if (fun v => decide (v ≠ NOTINUSE)) ACKED = true then 1 else 0) = 1 := by
              decide
            have hS : (if (fun v => decide (v ≠ NOTINUSE)) SENT = true then 1 else 0) = 1 := by
              decide
            rw [hA, hS] at hbal
            omega
        cases hsl : slideLoop s2.windowcount.toNat s2 false with
        | none =>
          rw [hsl] at h
          exact Option.noConfusion h
        | some r =>
          rw [hsl] at h
          simp only [Option.bind_eq_bind, Option.some_bind] at h
          have hi3 : AInv r.1 := slideLoop_inv _ s2 false hI2 hsl
          have hTimer : ∀ (t : Bool), AInv { r.1 with timerOn := t } := by
            intro t
            exact ⟨hi3.bufLen, hi3.stLen, hi3.cntNonneg, hi3.cntLe, hi3.nsLo, hi3.nsHi,
              hi3.wfLo, hi3.wfHi, hi3.ntLo, hi3.ntHi, hi3.stVals, hi3.congru,
              hi3.bufSeq, hi3.occLe⟩
          by_cases hcs : r.2 = true
          · rw [hcs] at h
            simp only [if_true] at h
            by_cases hc0 : r.1.windowcount > 0
            · rw [if_pos hc0] at h
              injection h with h1
              subst h1
              exact hTimer true
            · rw [if_neg hc0] at h
              injection h with h1
              subst h1
              exact hTimer false
          · have hfalse : r.2 = false := by
              cases hr2 : r.2
              · rfl
              · exact absurd hr2 hcs
            rw [hfalse] at h
            simp only [Bool.false_eq_true, if_false] at h
            injection h with h1
            subst h1
            exact hi3
      · rw [if_neg hst] at h
        injection h with h1
        subst h1
        exact hI
  · rw [if_neg hin] at h
    injection h with h1
    subst h1
    exact hI

/-- `A_input` preserves the sender invariant. -/
theorem AInv_input {s s' : AState} {p : Pkt} (hI : AInv s)
    (h : A_input s p = some s') : AInv s' := by
  have hStats : AInv { s with total_ACKs_received := s.total_ACKs_received + 1 } :=
    ⟨hI.bufLen, hI.stLen, hI.cntNonneg, hI.cntLe, hI.nsLo, hI.nsHi,
      hI.wfLo, hI.wfHi, hI.ntLo, hI.ntHi, hI.stVals, hI.congru, hI.bufSeq, hI.occLe⟩
  unfold A_input at h
  by_cases hck : p.checksum = ComputeChecksum p
  · rw [if_pos hck] at h
    exact AInv_inputBody hStats h
  · rw [if_neg hck] at h
    injection h with h1
    subst h1
    exact hI


/-- The resend scan of `A_timerinterrupt` preserves the sender invariant. -/
theorem resendScan_inv {s : AState} (hI : AInv s) :
    ∀ (n : ℕ) (i : ℤ), 0 ≤ i → ∀ {s' : AState} {out : List Pkt},
      resendScan s n i = some (s', out) → AInv s'
  | 0, i, hi0, s', out, h => by
    unfold resendScan at h
    injection h with h1
    injection h1 with h2 h3
    subst h2
    have hnt1 : (0 : ℤ) ≤ s.next_timeout + 1 := by have := hI.ntLo; omega
    have hB := cMod_bounds (b := 6) hnt1 (by norm_num)
    exact ⟨hI.bufLen, hI.stLen, hI.cntNonneg, hI.cntLe, hI.nsLo, hI.nsHi,
      hI.wfLo, hI.wfHi, hB.1, hB.2, hI.stVals, hI.congru, hI.bufSeq, hI.occLe⟩
  | n + 1, i, hi0, s', out, h => by
    unfold resendScan at h
    cases hg : cGet s.packet_status (cMod (s.next_timeout + i) WINDOWSIZE) with
    | none =>
      rw [hg] at h
      exact Option.noConfusion h
    | some st =>
      rw [hg] at h
      simp only [Option.bind_eq_bind, Option.some_bind] at h
      by_cases hst : st = SENT
      · rw [if_pos hst] at h
        cases hgb : cGet s.buffer (cMod (s.next_timeout + i) WINDOWSIZE) with
        | none =>
          rw [hgb] at h
          exact Option.noConfusion h
        | some pk =>
          rw [hgb] at h
          simp only [Option.bind_eq_bind, Option.some_bind] at h
          injection h with h1
          injection h1 with h2 h3
          subst h2
          have hnti : (0 : ℤ) ≤ s.next_timeout + i := by have := hI.ntLo; omega
          have hwiB := cMod_bounds (b := WINDOWSIZE) hnti (by decide)
          have hnt1 : (0 : ℤ) ≤ cMod (s.next_timeout + i) WINDOWSIZE + 1 := by
            have := hwiB.1; omega
          have hB := cMod_bounds (b := WINDOWSIZE) hnt1 (by decide)
          exact ⟨hI.bufLen, hI.stLen, hI.cntNonneg, hI.cntLe, hI.nsLo, hI.nsHi,
            hI.wfLo, hI.wfHi, hB.1, hB.2, hI.stVals, hI.congru, hI.bufSeq, hI.occLe⟩
      · rw [if_neg hst] at h
        exact resendScan_inv hI n (i + 1) (by omega) h

/-- Every sender step preserves the sender invariant. -/
theorem AStepE_inv {s s' : AState} {e : AEvent} {out : List Pkt} (hI : AInv s)
    (h : AStepE s e = some (s', out)) : AInv s' := by
  cases e with
  | send m => exact AInv_output hI h
  | ack p =>
    simp only [AStepE, Option.map_eq_map] at h
    cases hg : A_input s p with
    | none => rw [hg] at h; exact Option.noConfusion h
    | some s1 =>
      rw [hg] at h
      injection h with h1
      injection h1 with h2 h3
      subst h2
      exact AInv_input hI hg
  | tick =>
    simp only [AStepE] at h
    by_cases ht : s.timerOn = true
    · rw [if_pos ht] at h
      set sT : AState := { s with timerOn := false } with hsT
      have hIT : AInv sT :=
        ⟨hI.bufLen, hI.stLen, hI.cntNonneg, hI.cntLe, hI.nsLo, hI.nsHi,
          hI.wfLo, hI.wfHi, hI.ntLo, hI.ntHi, hI.stVals, hI.congru, hI.bufSeq, hI.occLe⟩
      unfold A_timerinterrupt at h
      by_cases hc : sT.windowcount > 0
      · rw [if_pos hc] at h
        exact resendScan_inv hIT 6 0 (by omega) h
      · rw [if_neg hc] at h
        injection h with h1
        injection h1 with h2 h3
        subst h2
        exact hIT
    · rw [if_neg ht] at h
      exact Option.noConfusion h

/-- Every state reachable from `A_init` satisfies the sender invariant. -/
theorem reachableA_inv {s : AState} (h : ReachableA s) : AInv s := by
  induction h with
  | init =>
    refine ⟨rfl, rfl, by decide, by decide, by decide, by decide,
      by decide, by decide, by decide, by decide, ?_, ?_, ?_, ?_⟩
    · intro i hi
      left
      interval_cases i <;> decide
    · intro i hi hne
      exfalso
      apply hne
      interval_cases i <;> decide
    · intro i hi
      interval_cases i <;> exact ⟨by decide, by decide⟩
    · show ((occCount A_init : ℤ)) ≤ A_init.windowcount
      decide
  | step hr hstep ih =>
    exact AStepE_inv ih hstep

/-- Claim C3: in every sender state reachable from `A_init` by any sequence
of `A_output`, `A_input`, and `A_timerinterrupt` events,
`0 ≤ windowcount ≤ WINDOWSIZE`, and every slot whose status is `SENT` or
`ACKED` holds a stored packet whose `seqnum mod WINDOWSIZE` equals the slot
index. -/
theorem c3_reachable_window_invariant {s : AState} (h : ReachableA s) :
    (0 ≤ s.windowcount ∧ s.windowcount ≤ WINDOWSIZE) ∧
    (∀ i : ℕ, i < 6 → (statusAt s i = SENT ∨ statusAt s i = ACKED) →
      cMod ((s.buffer.getD i pkt0).seqnum) WINDOWSIZE = (i : ℤ)) := by
  have hI := reachableA_inv h
  refine ⟨⟨hI.cntNonneg, hI.cntLe⟩, ?_⟩
  intro i hi hsa
  refine hI.congru i hi ?_
  rcases hsa with h1 | h1 <;> rw [h1] <;> decide

/-- Witness for C3 at the concrete reachable state obtained by one
`A_output` from `A_init`. -/
theorem c3_reachable_window_invariant_witness :
    (0 ≤ (((A_output A_init (msgK 0)).getD (A_init, [])).1).windowcount ∧
      (((A_output A_init (msgK 0)).getD (A_init, [])).1).windowcount ≤ WINDOWSIZE) ∧
    (∀ i : ℕ, i < 6 →
      (statusAt (((A_output A_init (msgK 0)).getD (A_init, [])).1) i = SENT ∨
        statusAt (((A_output A_init (msgK 0)).getD (A_init, [])).1) i = ACKED) →
      cMod (((((A_output A_init (msgK 0)).getD (A_init, [])).1).buffer.getD i pkt0).seqnum)
        WINDOWSIZE = (i : ℤ)) :=
  c3_reachable_window_invariant
    (ReachableA.step ReachableA.init
      (show AStepE A_init (AEvent.send (msgK 0)) =
          some (((A_output A_init (msgK 0)).getD (A_init, [])).1,
            ((A_output A_init (msgK 0)).getD (A_init, [])).2) from rfl))

/-- Claim C9: `A_output` with a full window only increments the window-full
counter and changes nothing else — no packet is built or transmitted, and
`windowcount`, `A_nextseqnum`, the buffer, the slot statuses and the timer
are untouched. -/
theorem c9_window_full_noop (s : AState) (m : Msg)
    (h : s.windowcount = WINDOWSIZE) :
    A_output s m = some ({ s with window_full := s.window_full + 1 }, []) := by
  unfold A_output
  rw [show (WINDOWSIZE : ℤ) = 6 from rfl] at h
  rw [show (WINDOWSIZE : ℤ) = 6 from rfl, if_neg (by omega)]

/-- Witness for C9 at a concrete full-window state. -/
theorem c9_window_full_noop_witness :
    A_output { A_init with windowcount := 6 } (msgK 0) =
      some ({ { A_init with windowcount := 6 } with
                window_full := { A_init with windowcount := 6 }.window_full + 1 }, []) :=
  c9_window_full_noop { A_init with windowcount := 6 } (msgK 0) (by decide)

/-- Claim C8: `A_output` with room in the window builds the packet with
`seqnum = A_nextseqnum` and a checksum over its fields, stores it at slot
`A_nextseqnum mod WINDOWSIZE` marked `SENT`, hands exactly that packet to
the channel, arms the timer precisely when `windowcount` goes from 0 to 1
(otherwise the timer is untouched), increments `windowcount`, advances
`A_nextseqnum` modulo `SEQSPACE`, and leaves the window base unchanged. -/
theorem c8_send_with_room (s : AState) (m : Msg) (hr : ReachableA s)
    (hlt : s.windowcount < WINDOWSIZE) :
    A_output s m = some (A_outputPost s m, [sendPkt s m]) ∧
    (sendPkt s m).seqnum = s.A_nextseqnum ∧
    (sendPkt s m).payload = m.data ∧
    (sendPkt s m).checksum = ComputeChecksum (sendPkt s m) ∧
    statusAt (A_outputPost s m) (cMod s.A_nextseqnum WINDOWSIZE).toNat = SENT ∧
    (A_outputPost s m).buffer.getD (cMod s.A_nextseqnum WINDOWSIZE).toNat pkt0 =
      sendPkt s m ∧
    (A_outputPost s m).windowcount = s.windowcount + 1 ∧
    (A_outputPost s m).A_nextseqnum = cMod (s.A_nextseqnum + 1) SEQSPACE ∧
    (A_outputPost s m).timerOn = (if s.windowcount = 0 then true else s.timerOn) ∧
    base_seqnum (A_outputPost s m) = base_seqnum s := by
  have hI := reachableA_inv hr
  have hw := cMod_bounds (b := 6) hI.nsLo (by norm_num)
  have hwilt : (cMod s.A_nextseqnum 6).toNat < 6 := by omega
  refine ⟨A_output_spec s m hlt hI.bufLen hI.stLen hI.nsLo, rfl, rfl, ?_, ?_, ?_, rfl, rfl,
    ?_, ?_⟩
  · show s.A_nextseqnum + NOTINUSE + m.data.sum =
      s.A_nextseqnum + NOTINUSE + m.data.sum
    rfl
  · show (s.packet_status.set (cMod s.A_nextseqnum WINDOWSIZE).toNat SENT).getD
      (cMod s.A_nextseqnum WINDOWSIZE).toNat 0 = SENT
    exact getD_set_self _ _ _ _ (by rw [hI.stLen]; exact hwilt)
  · show (s.buffer.set (cMod s.A_nextseqnum WINDOWSIZE).toNat (sendPkt s m)).getD
      (cMod s.A_nextseqnum WINDOWSIZE).toNat pkt0 = sendPkt s m
    exact getD_set_self _ _ _ _ (by rw [hI.bufLen]; exact hwilt)
  · show (if s.windowcount + 1 = 1 then true else s.timerOn) =
      (if s.windowcount = 0 then true else s.timerOn)
    by_cases h0 : s.windowcount = 0
    · rw [if_pos h0, if_pos (by omega)]
    · rw [if_neg h0, if_neg (by omega)]
  · show cMod (cMod (s.A_nextseqnum + 1) SEQSPACE - (s.windowcount + 1) + SEQSPACE)
      SEQSPACE = cMod (s.A_nextseqnum - s.windowcount + SEQSPACE) SEQSPACE
    have hns := hI.nsLo
    have hns13 := hI.nsHi
    have hc0 := hI.cntNonneg
    have hc6 := hI.cntLe
    rw [show (SEQSPACE : ℤ) = 13 from rfl]
    have hd := cMod_bounds (b := 13) (a := s.A_nextseqnum + 1) (by omega) (by norm_num)
    rw [cMod_eq_emod 13 (by omega)]
    rw [cMod_eq_emod 13 (by omega)]
    rw [cMod_eq_emod 13 (by omega)]
    have hx := Int.emod_nonneg (s.A_nextseqnum + 1) (show (13 : ℤ) ≠ 0 by norm_num)
    have hx2 := Int.emod_lt_of_pos (s.A_nextseqnum + 1) (show (0 : ℤ) < 13 by norm_num)
    omega

/-- Witness for C8 at `A_init` with the first message. -/
theorem c8_send_with_room_witness :
    A_output A_init (msgK 0) = some (A_outputPost A_init (msgK 0), [sendPkt A_init (msgK 0)]) ∧
    (sendPkt A_init (msgK 0)).seqnum = A_init.A_nextseqnum ∧
    (sendPkt A_init (msgK 0)).payload = (msgK 0).data ∧
    (sendPkt A_init (msgK 0)).checksum = ComputeChecksum (sendPkt A_init (msgK 0)) ∧
    statusAt (A_outputPost A_init (msgK 0)) (cMod A_init.A_nextseqnum WINDOWSIZE).toNat =
      SENT ∧
    (A_outputPost A_init (msgK 0)).buffer.getD
      (cMod A_init.A_nextseqnum WINDOWSIZE).toNat pkt0 = sendPkt A_init (msgK 0) ∧
    (A_outputPost A_init (msgK 0)).windowcount = A_init.windowcount + 1 ∧
    (A_outputPost A_init (msgK 0)).A_nextseqnum = cMod (A_init.A_nextseqnum + 1) SEQSPACE ∧
    (A_outputPost A_init (msgK 0)).timerOn =
      (if A_init.windowcount = 0 then true else A_init.timerOn) ∧
    base_seqnum (A_outputPost A_init (msgK 0)) = base_seqnum A_init :=
  c8_send_with_room A_init (msgK 0) ReachableA.init (by decide)

/-- The resend scan only ever emits the content of a slot whose status is
`SENT`, emits at most one packet, and re-arms the timer when it emits. -/
theorem resendScan_spec {s : AState} :
    ∀ (n : ℕ) (i : ℤ) {s' : AState} {out : List Pkt},
      resendScan s n i = some (s', out) →
      out = [] ∨
      ∃ wi : ℤ, 0 ≤ wi ∧ wi.toNat < s.packet_status.length ∧
        cGet s.packet_status wi = some SENT ∧
        out = [s.buffer.getD wi.toNat pkt0] ∧
        s'.timerOn = true
  | 0, i, s', out, h => by
    unfold resendScan at h
    injection h with h1
    injection h1 with h2 h3
    left
    exact h3.symm
  | n + 1, i, s', out, h => by
    unfold resendScan at h
    cases hg : cGet s.packet_status (cMod (s.next_timeout + i) WINDOWSIZE) with
    | none =>
      rw [hg] at h
      exact Option.noConfusion h
    | some st =>
      rw [hg] at h
      simp only [Option.bind_eq_bind, Option.some_bind] at h
      by_cases hst : st = SENT
      · rw [if_pos hst] at h
        cases hgb : cGet s.buffer (cMod (s.next_timeout + i) WINDOWSIZE) with
        | none =>
          rw [hgb] at h
          exact Option.noConfusion h
        | some pk =>
          rw [hgb] at h
          simp only [Option.bind_eq_bind, Option.some_bind] at h
          injection h with h1
          injection h1 with h2 h3
          right
          have hs := cGet_some (0 : ℤ) hg
          have hb := cGet_some pkt0 hgb
          refine ⟨cMod (s.next_timeout + i) WINDOWSIZE, hs.1, hs.2.1, ?_, ?_, ?_⟩
          · rw [hg, hst]
          · rw [← h3, hb.2.2]
          · rw [← h2]
      · rw [if_neg hst] at h
        exact resendScan_spec n (i + 1) h

/-- Claim C5, amended: on a timer expiry with `windowcount > 0` the sender
resends at most one packet, only ever the buffered packet of a slot whose
status is `SENT` (never an `ACKED` or free slot), and re-arms the timer
whenever it resends; the resent packet is not necessarily the oldest
unacknowledged one. -/
theorem c5_amended_resend_policy (s : AState) (hr : ReachableA s)
    (hc : s.windowcount > 0) :
    ∀ {s' : AState} {out : List Pkt}, A_timerinterrupt s = some (s', out) →
      out.length ≤ 1 ∧
      (∀ pk ∈ out, ∃ wi : ℤ, 0 ≤ wi ∧ wi.toNat < 6 ∧
        cGet s.packet_status wi = some SENT ∧
        pk = s.buffer.getD wi.toNat pkt0) ∧
      (out ≠ [] → s'.timerOn = true) := by
  intro s' out h
  have hI := reachableA_inv hr
  unfold A_timerinterrupt at h
  rw [if_pos hc] at h
  rcases resendScan_spec 6 0 h with h1 | ⟨wi, hwi0, hwiL, hwiS, hout, ht⟩
  · subst h1
    exact ⟨by simp, by intro pk hpk; exact absurd hpk (by simp), by intro hne; exact absurd rfl hne⟩
  · subst hout
    refine ⟨by simp, ?_, fun _ => ht⟩
    intro pk hpk
    rw [List.mem_singleton] at hpk
    exact ⟨wi, hwi0, by rw [hI.stLen] at hwiL; exact hwiL, hwiS, hpk⟩

/-- With at least one packet outstanding, the sender's window test accepts
exactly the acknowledgment numbers at circular distance less than
`windowcount` from the derived base. -/
theorem aInWindow_iff_dist {s : AState} {a : ℤ} (hI : AInv s)
    (hc : 1 ≤ s.windowcount) (ha0 : 0 ≤ a) (ha13 : a < 13) :
    aInWindow s a = true ↔ distSR (base_seqnum s) a < s.windowcount := by
  have hns := hI.nsLo
  have hns13 := hI.nsHi
  have hc6 := hI.cntLe
  unfold aInWindow distSR base_seqnum
  rw [show (SEQSPACE : ℤ) = 13 from rfl]
  set B := cMod (s.A_nextseqnum - s.windowcount + 13) 13 with hB
  have hBb : 0 ≤ B ∧ B < 13 := cMod_bounds (by omega) (by norm_num)
  rw [cMod_eq_emod 13 (by omega)]
  rw [cMod_eq_emod 13 (by omega)]
  split_ifs with hbm
  · simp only [decide_eq_true_eq]
    omega
  · simp only [decide_eq_true_eq]
    omega

/-- With an empty window the sender's window test degenerates to accepting
every acknowledgment number in the sequence space. -/
theorem aInWindow_count0 {s : AState} {a : ℤ} (hI : AInv s)
    (hc : s.windowcount = 0) (ha0 : 0 ≤ a) (ha13 : a < 13) :
    aInWindow s a = true := by
  have hns := hI.nsLo
  have hns13 := hI.nsHi
  unfold aInWindow
  rw [show (SEQSPACE : ℤ) = 13 from rfl, hc]
  by_cases hns0 : s.A_nextseqnum = 0
  · rw [hns0]
    rw [show cMod ((0 : ℤ) - 0 + 13) 13 = 0 from by decide]
    rw [show cMod ((0 : ℤ) + 0 - 1) 13 = -1 from by decide]
    rw [if_neg (by norm_num)]
    simp only [decide_eq_true_eq]
    omega
  · rw [cMod_eq_emod 13 (by omega)]
    rw [show (s.A_nextseqnum - 0 + 13) % 13 = s.A_nextseqnum by omega]
    rw [cMod_eq_emod 13 (by omega)]
    rw [show (s.A_nextseqnum + 0 - 1) % 13 = s.A_nextseqnum - 1 by omega]
    rw [if_neg (by omega)]
    simp only [decide_eq_true_eq]
    omega

/-- A list element at an in-bounds index, read with a default, is a member. -/
theorem getD_mem_of_lt {α : Type} (l : List α) (i : ℕ) (d : α)
    (h : i < l.length) : l.getD i d ∈ l := by
  rw [List.getD_eq_get?]
  cases hg : l.get? i with
  | none => exact absurd (List.get?_eq_none.mp hg) (by omega)
  | some v =>
    have hv : v ∈ l := List.get?_mem hg
    simpa using hv

/-- In a reachable sender state with an empty window, every slot is free:
the number of occupied slots never exceeds `windowcount`. -/
theorem allFree_of_count0 {s : AState} (hI : AInv s) (hc : s.windowcount = 0) :
    ∀ i : ℕ, i < 6 → s.packet_status.getD i 0 = NOTINUSE := by
  intro i hi
  have hocc := hI.occLe
  rw [hc] at hocc
  have h0 : occCount s = 0 := by omega
  rw [occCount] at h0
  have hmem : s.packet_status.getD i 0 ∈ s.packet_status :=
    getD_mem_of_lt _ _ _ (by rw [hI.stLen]; exact hi)
  have hx := List.countP_eq_zero.mp h0 _ hmem
  simpa using hx

/-- The body of `A_input` is a no-op on an acknowledgment number outside the
window `[base, base + windowcount - 1]`. -/
theorem A_inputBody_out_of_window_noop {s : AState} {q : Pkt} (hI : AInv s)
    (h0 : 0 ≤ q.acknum) (h13 : q.acknum < 13)
    (hout : ¬ distSR (base_seqnum s) q.acknum < s.windowcount) :
    A_inputBody s q = some s := by
  rcases eq_or_lt_of_le hI.cntNonneg with hc0 | hc1
  · unfold A_inputBody
    rw [if_pos (aInWindow_count0 hI hc0.symm h0 h13)]
    have hwi := cMod_bounds (b := WINDOWSIZE) h0 (by decide)
    have hW : (WINDOWSIZE : ℤ) = 6 := rfl
    rw [cGet_eq_some s.packet_status (cMod q.acknum WINDOWSIZE) 0 hwi.1
      (by rw [hI.stLen]; omega)]
    simp only [Option.bind_eq_bind, Option.some_bind]
    rw [allFree_of_count0 hI hc0.symm (cMod q.acknum WINDOWSIZE).toNat (by omega)]
    rw [if_neg (by decide)]
  · unfold A_inputBody
    rw [if_neg (fun htrue => hout ((aInWindow_iff_dist hI hc1 h0 h13).mp htrue))]

/-- Claim C6: a corrupted incoming packet at either endpoint is a complete
no-op (the receiver also emits no ACK for it), and an uncorrupted ACK whose
acknowledgment number lies outside the sender window
`[base, base + windowcount - 1]` changes nothing at the sender except the
`total_ACKs_received` statistic. -/
theorem c6_corrupted_and_out_of_window_noop (sa : AState) (sb : BState)
    (p q : Pkt) (hra : ReachableA sa) :
    (IsCorrupted p → A_input sa p = some sa) ∧
    (IsCorrupted p → B_input sb p = some (sb, [], none)) ∧
    (¬IsCorrupted q → 0 ≤ q.acknum → q.acknum < SEQSPACE →
      ¬ distSR (base_seqnum sa) q.acknum < sa.windowcount →
      A_input sa q =
        some { sa with total_ACKs_received := sa.total_ACKs_received + 1 }) := by
  have hI := reachableA_inv hra
  refine ⟨?_, ?_, ?_⟩
  · intro hcor
    unfold A_input
    rw [if_neg hcor]
  · intro hcor
    unfold B_input
    rw [if_neg hcor]
  · intro hnc h0 h13 hout
    unfold A_input
    rw [if_pos (of_not_not hnc)]
    have hI1 : AInv { sa with total_ACKs_received := sa.total_ACKs_received + 1 } :=
      ⟨hI.bufLen, hI.stLen, hI.cntNonneg, hI.cntLe, hI.nsLo, hI.nsHi,
        hI.wfLo, hI.wfHi, hI.ntLo, hI.ntHi, hI.stVals, hI.congru, hI.bufSeq, hI.occLe⟩
    exact A_inputBody_out_of_window_noop hI1 h0 (by exact h13) hout

/-- The receiver's window test accepts exactly the sequence numbers at
circular distance less than `WINDOWSIZE` ahead of `expectedseqnum`. -/
theorem bInWindow_iff (b q : ℤ) (hb0 : 0 ≤ b) (hb13 : b < 13)
    (hq0 : 0 ≤ q) (hq13 : q < 13) :
    ((if b ≤ cMod (b + WINDOWSIZE - 1) SEQSPACE then
        decide (b ≤ q ∧ q ≤ cMod (b + WINDOWSIZE - 1) SEQSPACE)
      else
        decide (q ≥ b ∨ q ≤ cMod (b + WINDOWSIZE - 1) SEQSPACE)) = true)
    ↔ distSR b q < WINDOWSIZE := by
  unfold distSR
  rw [show (SEQSPACE : ℤ) = 13 from rfl, show (WINDOWSIZE : ℤ) = 6 from rfl]
  rw [cMod_eq_emod 13 (by omega)]
  rw [cMod_eq_emod 13 (by omega)]
  split_ifs with hbm
  · simp only [decide_eq_true_eq]
    omega
  · simp only [decide_eq_true_eq]
    omega

/-- Claim C7: an uncorrupted duplicate at the receiver — an in-window packet
whose slot is already filled, or a packet at circular distance 1..WINDOWSIZE
behind `expectedseqnum` — produces exactly one ACK carrying that packet's
sequence number, delivers nothing, and leaves the whole receive buffer state
(`rcv_buffer`, `packet_received`, `expectedseqnum`) unchanged; an uncorrupted
packet farther outside the window is dropped without an ACK. -/
theorem c7_receiver_duplicate_handling (s : BState) (p : Pkt)
    (hnc : ¬IsCorrupted p) (hq0 : 0 ≤ p.seqnum) (hq13 : p.seqnum < SEQSPACE)
    (hb0 : 0 ≤ s.expectedseqnum) (hb13 : s.expectedseqnum < SEQSPACE) :
    (∀ v : ℤ, distSR s.expectedseqnum p.seqnum < WINDOWSIZE →
      cGet s.packet_received
        (cMod (p.seqnum - s.expectedseqnum + WINDOWSIZE) WINDOWSIZE) = some v →
      v ≠ 0 →
      B_input s p = some ((mkAck s p.seqnum).1, [], some (mkAck s p.seqnum).2)) ∧
    (1 ≤ distSR p.seqnum s.expectedseqnum →
      distSR p.seqnum s.expectedseqnum ≤ WINDOWSIZE →
      B_input s p = some ((mkAck s p.seqnum).1, [], some (mkAck s p.seqnum).2)) ∧
    (¬ distSR s.expectedseqnum p.seqnum < WINDOWSIZE →
      WINDOWSIZE < distSR p.seqnum s.expectedseqnum →
      B_input s p = some (s, [], none)) ∧
    (mkAck s p.seqnum).2.acknum = p.seqnum ∧
    (mkAck s p.seqnum).1.rcv_buffer = s.rcv_buffer ∧
    (mkAck s p.seqnum).1.packet_received = s.packet_received ∧
    (mkAck s p.seqnum).1.expectedseqnum = s.expectedseqnum ∧
    (mkAck s p.seqnum).1.packets_received = s.packets_received := by
  have hck : p.checksum = ComputeChecksum p := of_not_not hnc
  have hS : (SEQSPACE : ℤ) = 13 := rfl
  have hW : (WINDOWSIZE : ℤ) = 6 := rfl
  rw [hS] at hq13 hb13
  have hwinIff := bInWindow_iff s.expectedseqnum p.seqnum hb0 hb13 hq0 hq13
  refine ⟨?_, ?_, ?_, rfl, rfl, rfl, rfl, rfl⟩
  · intro v hwin hflag hv
    unfold B_input
    rw [if_pos hck]
    rw [if_pos (hwinIff.mpr hwin)]
    rw [hflag]
    simp only [Option.bind_eq_bind, Option.some_bind]
    rw [if_neg hv]
  · intro hbehind1 hbehind6
    have e1 : distSR s.expectedseqnum p.seqnum =
        (p.seqnum - s.expectedseqnum + 13) % 13 := by
      unfold distSR
      rw [hS]
      exact cMod_eq_emod 13 (by omega)
    have e2 : distSR p.seqnum s.expectedseqnum =
        (s.expectedseqnum - p.seqnum + 13) % 13 := by
      unfold distSR
      rw [hS]
      exact cMod_eq_emod 13 (by omega)
    have hq' : distSR s.expectedseqnum p.seqnum ≥ 6 := by
      rw [e2] at hbehind1 hbehind6
      rw [e1]
      omega
    unfold B_input
    rw [if_pos hck]
    rw [if_neg (fun htrue => by
      have hx := hwinIff.mp htrue
      omega)]
    rw [if_pos (show cMod (s.expectedseqnum - p.seqnum + SEQSPACE) SEQSPACE ≤
      WINDOWSIZE from hbehind6)]
  · intro hfar hgt
    unfold B_input
    rw [if_pos hck]
    rw [if_neg (fun htrue => hfar (hwinIff.mp htrue))]
    rw [if_neg (show ¬ cMod (s.expectedseqnum - p.seqnum + SEQSPACE) SEQSPACE ≤
      WINDOWSIZE from not_le.mpr hgt)]

/-- Witness for C7 at `B_init` with the concrete packet of sequence number 7
(circular distance 6 behind the initial window base 0). -/
theorem c7_receiver_duplicate_handling_witness :
    (∀ v : ℤ, distSR B_init.expectedseqnum (dataPkt 7 5).seqnum < WINDOWSIZE →
      cGet B_init.packet_received
        (cMod ((dataPkt 7 5).seqnum - B_init.expectedseqnum + WINDOWSIZE)
          WINDOWSIZE) = some v →
      v ≠ 0 →
      B_input B_init (dataPkt 7 5) =
        some ((mkAck B_init (dataPkt 7 5).seqnum).1, [],
          some (mkAck B_init (dataPkt 7 5).seqnum).2)) ∧
    (1 ≤ distSR (dataPkt 7 5).seqnum B_init.expectedseqnum →
      distSR (dataPkt 7 5).seqnum B_init.expectedseqnum ≤ WINDOWSIZE →
      B_input B_init (dataPkt 7 5) =
        some ((mkAck B_init (dataPkt 7 5).seqnum).1, [],
          some (mkAck B_init (dataPkt 7 5).seqnum).2)) ∧
    (¬ distSR B_init.expectedseqnum (dataPkt 7 5).seqnum < WINDOWSIZE →
      WINDOWSIZE < distSR (dataPkt 7 5).seqnum B_init.expectedseqnum →
      B_input B_init (dataPkt 7 5) = some (B_init, [], none)) ∧
    (mkAck B_init (dataPkt 7 5).seqnum).2.acknum = (dataPkt 7 5).seqnum ∧
    (mkAck B_init (dataPkt 7 5).seqnum).1.rcv_buffer = B_init.rcv_buffer ∧
    (mkAck B_init (dataPkt 7 5).seqnum).1.packet_received = B_init.packet_received ∧
    (mkAck B_init (dataPkt 7 5).seqnum).1.expectedseqnum = B_init.expectedseqnum ∧
    (mkAck B_init (dataPkt 7 5).seqnum).1.packets_received = B_init.packets_received :=
  c7_receiver_duplicate_handling B_init (dataPkt 7 5) (by decide) (by decide)
    (by decide) (by decide) (by decide)

/-- Witness for C6 at `A_init`, `B_init`, the concrete corrupted packet
`badPkt` and the valid out-of-window ACK `ackPkt 5`. -/
theorem c6_corrupted_and_out_of_window_noop_witness :
    (IsCorrupted badPkt → A_input A_init badPkt = some A_init) ∧
    (IsCorrupted badPkt → B_input B_init badPkt = some (B_init, [], none)) ∧
    (¬IsCorrupted (ackPkt 5) → 0 ≤ (ackPkt 5).acknum → (ackPkt 5).acknum < SEQSPACE →
      ¬ distSR (base_seqnum A_init) (ackPkt 5).acknum < A_init.windowcount →
      A_input A_init (ackPkt 5) =
        some { A_init with total_ACKs_received := A_init.total_ACKs_received + 1 }) :=
  c6_corrupted_and_out_of_window_noop A_init B_init badPkt (ackPkt 5) ReachableA.init

/-- Witness for the amended C5 at the concrete reachable state obtained by
one `A_output` from `A_init` (one packet outstanding, timer running). -/
theorem c5_amended_resend_policy_witness :
    (((A_output A_init (msgK 0)).getD (A_init, [])).1).windowcount > 0 ∧
    (∀ {s' : AState} {out : List Pkt},
      A_timerinterrupt (((A_output A_init (msgK 0)).getD (A_init, [])).1) = some (s', out) →
      out.length ≤ 1 ∧
      (∀ pk ∈ out, ∃ wi : ℤ, 0 ≤ wi ∧ wi.toNat < 6 ∧
        cGet (((A_output A_init (msgK 0)).getD (A_init, [])).1).packet_status wi =
          some SENT ∧
        pk = (((A_output A_init (msgK 0)).getD (A_init, [])).1).buffer.getD wi.toNat pkt0) ∧
      (out ≠ [] → s'.timerOn = true)) :=
  ⟨by decide,
    c5_amended_resend_policy (((A_output A_init (msgK 0)).getD (A_init, [])).1)
      (ReachableA.step ReachableA.init
        (show AStepE A_init (AEvent.send (msgK 0)) =
            some (((A_output A_init (msgK 0)).getD (A_init, [])).1,
              ((A_output A_init (msgK 0)).getD (A_init, [])).2) from rfl))
      (by decide)⟩

/-- Claim C10 is violated by the code: after twelve lossless rounds, sending
messages 12 and 13 (whose sequence numbers 12 and 0 share slot 0, so the
second overwrites the first while both count toward `windowcount`), receiving
B's ACK for sequence number 0 (which frees the shared slot but removes only
one unit of `windowcount`), and one timer expiry (which finds no `SENT` slot
and therefore never calls `starttimer`), the sender ends with
`windowcount = 1` and the timer not running — the claimed invariant
"the timer is running iff windowCount > 0" is false in a reachable state. -/
theorem c10_timer_invariant_fails :
    (sysRun sys0 c10Script).isSome = true ∧
    c10post.sa.windowcount = 1 ∧
    c10post.sa.timerOn = false := by
  refine ⟨by decide, by decide, by decide⟩

/-- Claim C1 is violated by the code: in a run with only in-order channel
deliveries and drops (messages 0..7 exchanged losslessly, then messages 8..13
sent, the packets with sequence numbers 8..12 dropped and the sequence-number-0
packet delivered), the receiver — whose window [8..0] wraps the sequence
space — computes buffer index `(0 - 8 + 6) % 6 = -2` for the uncorrupted
in-window packet and reads `packet_received[-2]`, an out-of-bounds access
(undefined behaviour), so the code does not ensure the claimed gapless
prefix delivery. -/
theorem c1_delivery_hits_oob :
    (sysRun sys0 c1preScript).isSome = true ∧
    c1pre.sb.expectedseqnum = 8 ∧
    c1pre.delivered = (List.range 8).map (fun k => (msgK k).data) ∧
    c1pre.aOut.length = 14 ∧
    (c1pre.aOut.getD 13 pkt0).seqnum = 0 ∧
    ¬IsCorrupted (c1pre.aOut.getD 13 pkt0) ∧
    distSR c1pre.sb.expectedseqnum (c1pre.aOut.getD 13 pkt0).seqnum < WINDOWSIZE ∧
    cMod ((c1pre.aOut.getD 13 pkt0).seqnum - c1pre.sb.expectedseqnum + WINDOWSIZE)
      WINDOWSIZE = -2 ∧
    sysStep c1pre (SEv.aToB 13) = none := by
  refine ⟨by decide, by decide, by decide, by decide, by decide, by decide,
    by decide, by decide, by decide⟩

/-- Claim C2 is violated by the code: after thirteen lossless rounds the
slide pointer `windowfirst` is `13 mod 6 = 1` while the base slot is
`sendBase mod 6 = 0`.  With messages 13 and 14 outstanding (sequence numbers
0 and 1, base 0), B's ACK for sequence number 1 — a non-base packet — makes
the slide loop consume slot 1 (= `windowfirst`), advancing the base from 0
to 1 and decrementing `windowCount`, while the base packet's slot 0 is still
only `SENT`. -/
theorem c2_base_advances_on_nonbase_ack :
    (sysRun sys0 c2preScript).isSome = true ∧
    base_seqnum c2pre.sa = 0 ∧
    c2pre.sa.windowfirst = 1 ∧
    statusAt c2pre.sa 0 = SENT ∧
    c2pre.sa.windowcount = 2 ∧
    (c2pre.bOut.getD 14 pkt0).acknum = 1 ∧
    (sysStep c2pre (SEv.bToA 14)).isSome = true ∧
    base_seqnum c2post.sa = 1 ∧
    c2post.sa.windowcount = 1 ∧
    statusAt c2post.sa 0 = SENT := by
  refine ⟨by decide, by decide, by decide, by decide, by decide, by decide,
    by decide, by decide, by decide, by decide⟩

/-- Claim C4 is violated by the code, in both directions it mentions.
First, with `expectedseqnum = 8` (reached by eight in-order arrivals) an
uncorrupted in-window packet with sequence number 0 yields buffer index
`(0 - 8 + 6) % 6 = -2`, a negative out-of-bounds index.  Second, with slots
1..5 buffered (packets 1..5 received out of order) the arrival of packet 0
makes the contiguous-drain loop read `packet_received[6]`, an index equal
to `WINDOWSIZE`. -/
theorem c4_buffer_index_out_of_bounds :
    ((bRun B_init ((List.range 8).map (fun k => dataPkt k 5))).isSome = true ∧
     c4sB.expectedseqnum = 8 ∧
     ¬IsCorrupted (dataPkt 0 5) ∧
     cMod ((dataPkt 0 5).seqnum - c4sB.expectedseqnum + WINDOWSIZE) WINDOWSIZE = -2 ∧
     B_input c4sB (dataPkt 0 5) = none) ∧
    ((bRun B_init ((List.range 5).map (fun k => dataPkt (k + 1) 7))).isSome = true ∧
     c4sB2.packet_received = [0, 1, 1, 1, 1, 1] ∧
     ¬IsCorrupted (dataPkt 0 7) ∧
     B_input c4sB2 (dataPkt 0 7) = none) := by
  refine ⟨⟨by decide, by decide, by decide, by decide, by decide⟩,
    ⟨by decide, by decide, by decide, by decide⟩⟩

/-- Claim C5, as stated, is false on the code: with packets 0 and 1 both
outstanding and unacknowledged, the first timer expiry resends packet 0 and
advances the rotating pointer `next_timeout`; the second expiry then resends
packet 1 (sequence number 1), although the oldest unacknowledged packet is
still packet 0 (the window base, whose slot is still `SENT`). -/
theorem c5_not_oldest_resent :
    (sysRun sys0 c5Script).isSome = true ∧
    c5post.aOut.length = 4 ∧
    (c5post.aOut.getD 2 pkt0).seqnum = 0 ∧
    (c5post.aOut.getD 3 pkt0).seqnum = 1 ∧
    base_seqnum c5post.sa = 0 ∧
    statusAt c5post.sa 0 = SENT := by
  refine ⟨by decide, by decide, by decide, by decide, by decide, by decide⟩

end SR
